import Mathlib

/-!
Verification of the CreoSynth content pipeline (src/app.py) against its
natural-language specification.

Python strings are modelled as `List Char`.  The functions below are shallow
embeddings of the corresponding Python code in `src/app.py`:

* `strip`            — Python `str.strip()` (whitespace from both ends);
* `isPre`            — `str.startswith` on char lists;
* `containsSub`      — Python's `needle in haystack` substring test;
* `splitFirst`       — Python `haystack.split(sep, 1)` at the first occurrence;
* `attribStep`/`attrib`/`fallbackSplit`/`decompose`
                     — the result-decomposition logic, app.py lines 260–295;
* `create_project`   — the validation and record-creation logic, lines 41–113;
* `process_in_background` — the status/result bookkeeping, lines 83–103;
* `process_crewai_project` — the env-key mutation, crew kickoff and error
                     wrapping, lines 156–300 (the CrewAI kickoff itself is an
                     external library call, abstracted as an `Except` input);
* `applyUpdate`      — the raw-merge PUT endpoint, lines 137–153.
-/

abbrev Str := List Char

/-- Python whitespace characters recognised by `str.strip()`:
space, tab, newline, carriage return, vertical tab, form feed. -/
def pySpace (c : Char) : Bool :=
  c = ' ' || c = '\t' || c = '\n' || c = '\r' || c = Char.ofNat 11 || c = Char.ofNat 12

/-- Python `str.strip()`: drop whitespace from both ends. -/
def strip (s : Str) : Str :=
  ((s.dropWhile pySpace).reverse.dropWhile pySpace).reverse

/-- Test whether `a` is an initial segment of `b` (Python `b.startswith(a)`). -/
def isPre : Str → Str → Bool
  | [], _ => true
  | _ :: _, [] => false
  | a :: as, b :: bs => a = b && isPre as bs

/-- Python's `needle in haystack` substring containment. -/
def containsSub (needle : Str) : Str → Bool
  | [] => isPre needle []
  | c :: rest => isPre needle (c :: rest) || containsSub needle rest

/-- Python `haystack.split(sep, 1)`: split at the first occurrence of `sep`.
`some (pre, post)` means `haystack = pre ++ sep ++ post` with `pre` minimal;
`none` means `sep` does not occur. -/
def splitFirst (sep : Str) : Str → Option (Str × Str)
  | [] => if isPre sep [] then some ([], []) else none
  | c :: rest =>
      if isPre sep (c :: rest) then some ([], List.drop sep.length (c :: rest))
      else (splitFirst sep rest).map (fun pr => (c :: pr.1, pr.2))

/-- The three output fields built by `process_crewai_project`
(`writer_output`, `reviewer_feedback`, `final_output`, app.py lines 260–295).
The spec calls them draft / review / verdict-finalText. -/
structure Fields where
  writer_output : Str
  reviewer_feedback : Str
  final_output : Str
deriving DecidableEq, Repr

/-- The marker substring of the label-search fallback (app.py line 283). -/
def reviewMarker : Str := "Review".data

/-- The fixed placeholder for the no-marker fallback (app.py line 289). -/
def reviewPlaceholder : Str := "Review completed. See final output.".data

/-- One iteration of the attribution loop over `result.tasks_output`
(app.py lines 267–276): substring role-sniffing with an if/elif chain;
a text that matches no label leaves the accumulator unchanged. -/
def attribStep (acc : Fields) (text : Str) : Fields :=
  if containsSub "Creative Content Writer".data text || containsSub "Writer".data text then
    { acc with writer_output := text }
  else if containsSub "Brand Compliance Reviewer".data text || containsSub "Reviewer".data text then
    { acc with reviewer_feedback := text }
  else if containsSub "Legal and Ethics".data text || containsSub "Compliance".data text then
    { acc with final_output := text }
  else acc

/-- The attribution pass (app.py lines 260–276): `writer_output` and
`reviewer_feedback` start empty, `final_output` starts as `str(result)`;
when `tasks_output` is present the loop runs over its stringified entries. -/
def attrib (tasksOutput : Option (List Str)) (finalStr : Str) : Fields :=
  match tasksOutput with
  | none => ⟨[], [], finalStr⟩
  | some ts => ts.foldl attribStep ⟨[], [], finalStr⟩

/-- The best-effort split of the final output (app.py lines 283–289):
split on the first `"Review"`; otherwise whole blob to writer and the
fixed placeholder to reviewer. -/
def fallbackSplit (f : Fields) : Fields :=
  match splitFirst reviewMarker f.final_output with
  | some pr =>
      { f with writer_output := strip pr.1,
               reviewer_feedback := reviewMarker ++ strip pr.2 }
  | none =>
      { f with writer_output := f.final_output,
               reviewer_feedback := reviewPlaceholder }

/-- The complete result decomposition (app.py lines 260–295): attribution
pass, then — only when both `writer_output` and `reviewer_feedback` are
still empty (Python `if not writer_output and not reviewer_feedback`) —
the fallback split of `final_output`. -/
def decompose (tasksOutput : Option (List Str)) (finalStr : Str) : Fields :=
  if (attrib tasksOutput finalStr).writer_output = [] ∧
     (attrib tasksOutput finalStr).reviewer_feedback = [] then
    fallbackSplit (attrib tasksOutput finalStr)
  else attrib tasksOutput finalStr

/-- A project record as stored in the in-memory `projects` map
(app.py lines 68–79).  The `error_message` key is absent initially and is
only added by the failure path (line 101), modelled as an `Option`. -/
structure Project where
  id : Str
  project_name : Str
  topic : Str
  guidelines : Str
  status : Str
  writer_output : Str
  reviewer_feedback : Str
  final_output : Str
  created_at : Str
  updated_at : Str
  error_message : Option Str
deriving DecidableEq, Repr

/-- The request body of `POST /api/projects` (app.py lines 41–44,59): absent
string keys default to the empty string, `project_name` is genuinely optional. -/
structure CreateData where
  topic : Str
  guidelines : Str
  api_key : Str
  project_name : Option Str
deriving DecidableEq, Repr

/-- The response of `create_project`: a `4xx` validation error with its
message and HTTP code, or success carrying the stored project record. -/
inductive CreateResponse where
  | validationError (msg : Str) (code : Nat)
  | success (p : Project)
deriving DecidableEq, Repr

/-- The observable effect of one `create_project` call: the HTTP response,
the `projects` map afterwards, and whether a background thread was started. -/
structure CreateResult where
  response : CreateResponse
  projects : List (Str × Project)
  threadStarted : Bool
deriving DecidableEq, Repr

/-- The project dict built at app.py lines 68–79: stripped topic and
guidelines, defaulted project name (`topic[:50]` when the stripped topic is
non-empty, else `'Untitled Project'`), status `pending`, empty output
fields, no error key. -/
def freshProject (data : CreateData) (newId now : Str) : Project :=
  ⟨newId,
   data.project_name.getD
     (if strip data.topic ≠ [] then (strip data.topic).take 50
      else "Untitled Project".data),
   strip data.topic, strip data.guidelines, "pending".data,
   [], [], [], now, now, none⟩

/-- `create_project` (app.py lines 37–113): strip and validate `topic`,
`guidelines` and `api_key` in that order, rejecting with a 400 before any
record is created; on success insert a fresh `pending` record keyed by a
new id and start the background thread. -/
def create_project (projects : List (Str × Project)) (data : CreateData)
    (newId now : Str) : CreateResult :=
  if strip data.topic = [] then
    ⟨.validationError "Topic is required".data 400, projects, false⟩
  else if strip data.guidelines = [] then
    ⟨.validationError "Brand guidelines are required".data 400, projects, false⟩
  else if strip data.api_key = [] then
    ⟨.validationError "Gemini / OpenAI API key is required".data 400, projects, false⟩
  else
    ⟨.success (freshProject data newId now),
     (newId, freshProject data newId now) :: projects, true⟩

/-- The first update of the background thread (app.py lines 85–88):
status becomes `processing`. -/
def markProcessing (p : Project) (now : Str) : Project :=
  { p with status := "processing".data, updated_at := now }

/-- `process_in_background` (app.py lines 83–103): mark the run processing,
then either store the three decomposed fields with status `completed`, or —
when `process_crewai_project` raised — record status `error` and the
exception text, leaving the output fields untouched. -/
def process_in_background (p : Project) (res : Except Str Fields)
    (now1 now2 : Str) : Project :=
  let p1 := markProcessing p now1
  match res with
  | .ok o =>
      { p1 with status := "completed".data,
                writer_output := o.writer_output,
                reviewer_feedback := o.reviewer_feedback,
                final_output := o.final_output,
                updated_at := now2 }
  | .error e =>
      { p1 with status := "error".data,
                error_message := some e,
                updated_at := now2 }

/-- Process-wide mutable configuration touched by `process_crewai_project`
(app.py lines 19, 167–168): the two API-key environment variables and the
model identifier read from the environment at startup. -/
structure SharedEnv where
  geminiApiKey : Option Str
  googleApiKey : Option Str
  modelId : Str
deriving DecidableEq, Repr

/-- Lines 167–168 of app.py: `os.environ["GEMINI_API_KEY"] = api_key` and
`os.environ["GOOGLE_API_KEY"] = api_key`. -/
def setEnvKeys (env : SharedEnv) (apiKey : Str) : SharedEnv :=
  { env with geminiApiKey := some apiKey, googleApiKey := some apiKey }

/-- What `my_crew.kickoff` (an external CrewAI call, app.py line 258) hands
back on success: the optional `tasks_output` list (stringified entries) and
`str(result)`. -/
structure CrewOutput where
  tasksOutput : Option (List Str)
  finalStr : Str
deriving DecidableEq, Repr

/-- The exception text raised at app.py lines 297–300:
`"Error processing project: " + str(e) + "\n" + traceback.format_exc()`. -/
def mkProcessError (e tb : Str) : Str :=
  "Error processing project: ".data ++ e ++ '\n' :: tb

/-- `process_crewai_project` (app.py lines 156–300) with the external CrewAI
kickoff abstracted as an `Except` input (`tb` is the traceback text captured
on failure): it first overwrites the two process-wide API-key environment
variables, then either decomposes the crew output or wraps and re-raises the
kickoff error. -/
def process_crewai_project (env : SharedEnv) (apiKey : Str)
    (kick : Except Str CrewOutput) (tb : Str) :
    SharedEnv × Except Str Fields :=
  let env1 := setEnvKeys env apiKey
  match kick with
  | .ok o => (env1, .ok (decompose o.tasksOutput o.finalStr))
  | .error e => (env1, .error (mkProcessError e tb))

/-- The body of `PUT /api/projects/<id>` (app.py lines 146–148): a raw merge
of the request dict into the stored record; every present key overwrites. -/
structure UpdateData where
  project_name : Option Str
  topic : Option Str
  guidelines : Option Str
  status : Option Str
  writer_output : Option Str
  reviewer_feedback : Option Str
  final_output : Option Str
deriving DecidableEq, Repr

/-- `update_project`'s merge (app.py lines 137–153): overwrite each supplied
field and refresh `updated_at`; no status-machine check is performed. -/
def applyUpdate (p : Project) (d : UpdateData) (now : Str) : Project :=
  { p with
      project_name := d.project_name.getD p.project_name,
      topic := d.topic.getD p.topic,
      guidelines := d.guidelines.getD p.guidelines,
      status := d.status.getD p.status,
      writer_output := d.writer_output.getD p.writer_output,
      reviewer_feedback := d.reviewer_feedback.getD p.reviewer_feedback,
      final_output := d.final_output.getD p.final_output,
      updated_at := now }

/-- A status is terminal when it is `completed` or `error`
(the spec's Completed / Failed). -/
def isTerminalStatus (s : Str) : Bool :=
  s = "completed".data || s = "error".data

/-- The transitions of the spec's state machine, in the code's status
vocabulary: pending → processing, processing → completed, processing → error. -/
def allowedTransition (a b : Str) : Bool :=
  (a = "pending".data && b = "processing".data) ||
  (a = "processing".data && (b = "completed".data || b = "error".data))

/-! ### Characterisation lemmas for the string helpers -/

theorem isPre_iff (a b : Str) : isPre a b = true ↔ ∃ t, a ++ t = b := by
  induction a generalizing b with
  | nil => simp [isPre]
  | cons x as ih =>
    cases b with
    | nil => simp [isPre]
    | cons y bs =>
      simp only [isPre, Bool.and_eq_true, decide_eq_true_eq, ih, List.cons_append,
        List.cons.injEq]
      constructor
      · rintro ⟨hxy, t, ht⟩
        exact ⟨t, hxy, ht⟩
      · rintro ⟨t, hxy, ht⟩
        exact ⟨hxy, t, ht⟩

theorem containsSub_iff (n s : Str) :
    containsSub n s = true ↔ ∃ u v, u ++ n ++ v = s := by
  induction s with
  | nil =>
    simp only [containsSub, isPre_iff, List.append_nil]
    constructor
    · rintro ⟨t, ht⟩
      rcases List.append_eq_nil.mp ht with ⟨hn, htt⟩
      exact ⟨[], [], by simp [hn]⟩
    · rintro ⟨u, v, huv⟩
      rcases List.append_eq_nil.mp huv with ⟨hun, hv⟩
      rcases List.append_eq_nil.mp hun with ⟨hu, hn⟩
      exact ⟨[], by simp [hn]⟩
  | cons c rest ih =>
    simp only [containsSub, Bool.or_eq_true, isPre_iff, ih]
    constructor
    · rintro (⟨t, ht⟩ | ⟨u, v, huv⟩)
      · exact ⟨[], t, by simpa using ht⟩
      · exact ⟨c :: u, v, by simp [huv]⟩
    · rintro ⟨u, v, huv⟩
      cases u with
      | nil => exact Or.inl ⟨v, by simpa using huv⟩
      | cons d u2 =>
        rcases List.cons.injEq .. ▸ huv with ⟨hdc, hrest⟩
        exact Or.inr ⟨u2, v, by simpa using hrest⟩

theorem containsSub_ne_nil {n s : Str} (h : containsSub n s = true)
    (hn : n ≠ []) : s ≠ [] := by
  rcases (containsSub_iff n s).mp h with ⟨u, v, huv⟩
  intro hs
  rw [hs] at huv
  rcases List.append_eq_nil.mp huv with ⟨hun, hv⟩
  rcases List.append_eq_nil.mp hun with ⟨hu, hn2⟩
  exact hn hn2

theorem splitFirst_eq (sep : Str) : ∀ s pre post : Str,
    splitFirst sep s = some (pre, post) → pre ++ sep ++ post = s := by
  intro s
  induction s with
  | nil =>
    intro pre post h
    unfold splitFirst at h
    split at h
    · rename_i hp
      rcases (isPre_iff sep []).mp hp with ⟨t, ht⟩
      rcases List.append_eq_nil.mp ht with ⟨hsep, htt⟩
      simp only [Option.some.injEq, Prod.mk.injEq] at h
      simp [← h.1, ← h.2, hsep]
    · exact absurd h (by simp)
  | cons c rest ih =>
    intro pre post h
    unfold splitFirst at h
    split at h
    · rename_i hp
      rcases (isPre_iff sep (c :: rest)).mp hp with ⟨t, ht⟩
      simp only [Option.some.injEq, Prod.mk.injEq] at h
      rw [← h.1, ← h.2, ← ht, List.nil_append, List.drop_left]
    · rename_i hp
      cases hr : splitFirst sep rest with
      | none => rw [hr] at h; exact absurd h (by simp)
      | some pr =>
        rw [hr] at h
        simp only [Option.map_some', Option.map_some, Option.some.injEq, Prod.mk.injEq] at h
        have := ih pr.1 pr.2 (by rw [hr])
        rw [← h.1, ← h.2]
        simpa using congrArg (c :: ·) this

theorem splitFirst_minimal (sep : Str) : ∀ s pre post : Str,
    splitFirst sep s = some (pre, post) →
    ∀ a b : Str, a ++ sep ++ b = s → pre.length ≤ a.length := by
  intro s
  induction s with
  | nil =>
    intro pre post h a b hab
    unfold splitFirst at h
    split at h
    · simp only [Option.some.injEq, Prod.mk.injEq] at h
      simp [← h.1]
    · exact absurd h (by simp)
  | cons c rest ih =>
    intro pre post h a b hab
    unfold splitFirst at h
    split at h
    · simp only [Option.some.injEq, Prod.mk.injEq] at h
      simp [← h.1]
    · rename_i hp
      cases hr : splitFirst sep rest with
      | none => rw [hr] at h; exact absurd h (by simp)
      | some pr =>
        rw [hr] at h
        simp only [Option.map_some', Option.map_some, Option.some.injEq, Prod.mk.injEq] at h
        cases a with
        | nil =>
          exfalso
          apply hp
          exact (isPre_iff sep (c :: rest)).mpr ⟨b, by simpa using hab⟩
        | cons d a2 =>
          have hdc : d = c ∧ a2 ++ sep ++ b = rest := by
            simpa using hab
          have := ih pr.1 pr.2 (by rw [hr]) a2 b hdc.2
          simp only [← h.1, List.length_cons]
          omega

theorem splitFirst_isSome (sep s : Str) :
    (splitFirst sep s).isSome = containsSub sep s := by
  induction s with
  | nil =>
    unfold splitFirst containsSub
    split <;> rename_i hp <;> simp [hp]
  | cons c rest ih =>
    unfold splitFirst containsSub
    split <;> rename_i hp
    · simp [hp]
    · simp [hp, Option.isSome_map, ih]

theorem splitFirst_eq_none {sep s : Str} (h : containsSub sep s = false) :
    splitFirst sep s = none := by
  cases hr : splitFirst sep s with
  | none => rfl
  | some pr =>
    exfalso
    have : (splitFirst sep s).isSome = true := by rw [hr]; rfl
    rw [splitFirst_isSome, h] at this
    exact Bool.false_ne_true this

/-! ### Claim theorems -/

/-- C1 counterexample: with per-stage outputs available as raw texts
`["A","B","C"]` for Writer/Reviewer/ComplianceOfficer (and `str(result)`
being the last stage's text `"C"`), the decomposer does NOT map roles to
fields: draft comes out as `"C"` (not `"A"`) and review as the placeholder
(not `"B"`), because attribution is keyed on role-label substrings inside
the texts, none of which occur here. -/
theorem c1_role_mapping_counterexample :
    (decompose (some ["A".data, "B".data, "C".data]) "C".data).writer_output ≠ "A".data ∧
    (decompose (some ["A".data, "B".data, "C".data]) "C".data).reviewer_feedback ≠ "B".data ∧
    decompose (some ["A".data, "B".data, "C".data]) "C".data =
      ⟨"C".data, reviewPlaceholder, "C".data⟩ := by decide

/-- C1 (amended): per-stage attribution is keyed by role-label substring
search inside each stage's text, in the if/elif order Writer labels, then
Reviewer labels, then Legal-and-Ethics/Compliance labels.  When each of the
three stage texts matches exactly its own branch, the three fields receive
the three raw texts unmodified (Writer text → draft, Reviewer text →
review, Compliance text → final/verdict slot) and no fallback split runs. -/
theorem c1_label_attribution (t1 t2 t3 f : Str)
    (h1 : (containsSub "Creative Content Writer".data t1 ||
           containsSub "Writer".data t1) = true)
    (h2w : (containsSub "Creative Content Writer".data t2 ||
            containsSub "Writer".data t2) = false)
    (h2r : (containsSub "Brand Compliance Reviewer".data t2 ||
            containsSub "Reviewer".data t2) = true)
    (h3w : (containsSub "Creative Content Writer".data t3 ||
            containsSub "Writer".data t3) = false)
    (h3r : (containsSub "Brand Compliance Reviewer".data t3 ||
            containsSub "Reviewer".data t3) = false)
    (h3c : (containsSub "Legal and Ethics".data t3 ||
            containsSub "Compliance".data t3) = true) :
    decompose (some [t1, t2, t3]) f = ⟨t1, t2, t3⟩ := by
  have ht1 : t1 ≠ [] := by
    cases hw : containsSub "Writer".data t1 with
    | true => exact containsSub_ne_nil hw (by decide)
    | false =>
      cases hc : containsSub "Creative Content Writer".data t1 with
      | true => exact containsSub_ne_nil hc (by decide)
      | false => rw [hc, hw] at h1; exact absurd h1 (by decide)
  have hsteps : attrib (some [t1, t2, t3]) f = ⟨t1, t2, t3⟩ := by
    unfold attrib
    simp only [List.foldl]
    unfold attribStep
    simp [h1, h2w, h2r, h3w, h3r, h3c]
  unfold decompose
  rw [hsteps]
  simp [ht1]

/-- C1 amended-claim witness: three labelled stage texts are routed to the
three fields verbatim. -/
theorem c1_label_attribution_witness :
    decompose (some ["Writer: A".data, "Reviewer: B".data, "Compliance: C".data])
        "C".data =
      ⟨"Writer: A".data, "Reviewer: B".data, "Compliance: C".data⟩ :=
  c1_label_attribution _ _ _ _ (by decide) (by decide) (by decide) (by decide)
    (by decide) (by decide)

/-- C2 counterexample: for blob `"A Review APPROVED"` the first occurrence
of `"Review"` is at position 2 (not at 0 or 1), and the decomposer's review
field is `"Review" + blob[8:].strip() = "ReviewAPPROVED"`, which differs
from the claimed `blob[2:]` trimmed (`"Review APPROVED"`); the draft field
does equal `blob[0:2]` trimmed. -/
theorem c2_trim_counterexample :
    (decompose none "A Review APPROVED".data).reviewer_feedback ≠
      strip (List.drop 2 "A Review APPROVED".data) ∧
    isPre reviewMarker (List.drop 2 "A Review APPROVED".data) = true ∧
    isPre reviewMarker "A Review APPROVED".data = false ∧
    isPre reviewMarker (List.drop 1 "A Review APPROVED".data) = false ∧
    (decompose none "A Review APPROVED".data).writer_output =
      strip (List.take 2 "A Review APPROVED".data) ∧
    (decompose none "A Review APPROVED".data).reviewer_feedback =
      "ReviewAPPROVED".data := by decide

/-- C2 (amended): with no per-stage attribution, the decomposer splits the
blob at the FIRST occurrence of `"Review"` — `blob = pre ++ "Review" ++
post` with `pre` of minimal length — and sets draft to `pre` trimmed and
review to the marker `"Review"` concatenated with `post` trimmed (equal to
`blob[p:]` trimmed only when no whitespace immediately follows the
marker). -/
theorem c2_marker_split (blob pre post : Str)
    (h : splitFirst reviewMarker blob = some (pre, post)) :
    decompose none blob = ⟨strip pre, reviewMarker ++ strip post, blob⟩ ∧
    pre ++ reviewMarker ++ post = blob ∧
    (∀ a b : Str, a ++ reviewMarker ++ b = blob → pre.length ≤ a.length) := by
  refine ⟨?_, splitFirst_eq _ _ _ _ h, splitFirst_minimal _ _ _ _ h⟩
  have ha : attrib none blob = ⟨[], [], blob⟩ := rfl
  unfold decompose
  rw [ha, if_pos ⟨rfl, rfl⟩]
  unfold fallbackSplit
  simp [h]

/-- C2 amended-claim witness: the spec's own example blob splits at the
first `"Review"` into the expected draft and review fields. -/
theorem c2_marker_split_witness :
    decompose none "Intro text. Review: APPROVED, good job.".data =
      ⟨"Intro text.".data, "Review: APPROVED, good job.".data,
       "Intro text. Review: APPROVED, good job.".data⟩ := by
  have h := (c2_marker_split "Intro text. Review: APPROVED, good job.".data
      "Intro text. ".data ": APPROVED, good job.".data (by decide)).1
  rw [h]; decide

/-- C3: when `"Review"` does not occur in the blob and no per-stage
attribution is available, the whole blob (untouched) becomes the draft
field and the review field is the fixed non-empty placeholder. -/
theorem c3_no_marker_fallback (blob : Str)
    (h : containsSub reviewMarker blob = false) :
    decompose none blob = ⟨blob, reviewPlaceholder, blob⟩ ∧
    reviewPlaceholder ≠ [] ∧
    (∀ u v : Str, u ++ reviewMarker ++ v ≠ blob) := by
  refine ⟨?_, by decide, ?_⟩
  · have hn := splitFirst_eq_none h
    have ha : attrib none blob = ⟨[], [], blob⟩ := rfl
    unfold decompose
    rw [ha, if_pos ⟨rfl, rfl⟩]
    unfold fallbackSplit
    simp [hn]
  · intro u v huv
    have hc : containsSub reviewMarker blob = true :=
      (containsSub_iff _ _).mpr ⟨u, v, huv⟩
    rw [h] at hc
    exact Bool.false_ne_true hc

/-- C3 witness: the spec's marker-free example blob is assigned whole to
draft, and review is the placeholder. -/
theorem c3_no_marker_fallback_witness :
    decompose none "Just a post with no markers".data =
      ⟨"Just a post with no markers".data, reviewPlaceholder,
       "Just a post with no markers".data⟩ :=
  (c3_no_marker_fallback "Just a post with no markers".data (by decide)).1

/-- C4 counterexample: when the crew kickoff raises `"timeout"`, the run is
marked `error` and the recorded detail is the wrapped message plus
traceback — it names no stage role (`Writer`, `Reviewer`, `Compliance` all
absent), and no per-stage outputs are recorded (the output fields stay
empty regardless of how many stages had completed inside the kickoff). -/
theorem c4_error_detail_counterexample :
    process_in_background
        ⟨"id1".data, "n".data, "t".data, "g".data, "pending".data, [], [], [],
         "c0".data, "c0".data, none⟩
        (.error (mkProcessError "timeout".data "trace".data)) "u1".data "u2".data =
      ⟨"id1".data, "n".data, "t".data, "g".data, "error".data, [], [], [],
       "c0".data, "u2".data,
       some "Error processing project: timeout\ntrace".data⟩ ∧
    containsSub "Writer".data "Error processing project: timeout\ntrace".data = false ∧
    containsSub "Reviewer".data "Error processing project: timeout\ntrace".data = false ∧
    containsSub "Compliance".data "Error processing project: timeout\ntrace".data = false := by
  decide

/-- C4 (amended): when a run's crew execution fails, the run's status
becomes `error` (Failed) and `error_message` records the wrapped detail —
which contains the underlying error message as a substring but names the
failing stage's role only if that underlying message happens to;
no stage outputs are recorded: the run's output fields keep their prior
values (partial per-stage progress inside the kickoff is not persisted). -/
theorem c4_failure_handling (p : Project) (e tb n1 n2 : Str) :
    (process_in_background p (.error (mkProcessError e tb)) n1 n2).status =
      "error".data ∧
    (process_in_background p (.error (mkProcessError e tb)) n1 n2).error_message =
      some (mkProcessError e tb) ∧
    (∃ u v : Str, u ++ e ++ v = mkProcessError e tb) ∧
    (process_in_background p (.error (mkProcessError e tb)) n1 n2).writer_output =
      p.writer_output ∧
    (process_in_background p (.error (mkProcessError e tb)) n1 n2).reviewer_feedback =
      p.reviewer_feedback ∧
    (process_in_background p (.error (mkProcessError e tb)) n1 n2).final_output =
      p.final_output := by
  refine ⟨rfl, rfl, ⟨"Error processing project: ".data, '\n' :: tb, ?_⟩, rfl, rfl, rfl⟩
  simp [mkProcessError]

/-- C5: a submission whose topic, guidelines or API key is empty after
stripping whitespace is rejected synchronously with a 400 validation
error; the projects map is unchanged and no background thread (hence no
stage) is started. -/
theorem c5_validation_rejects (projects : List (Str × Project)) (data : CreateData)
    (newId now : Str)
    (h : strip data.topic = [] ∨ strip data.guidelines = [] ∨
         strip data.api_key = []) :
    (∃ msg code, (create_project projects data newId now).response =
        .validationError msg code) ∧
    (create_project projects data newId now).projects = projects ∧
    (create_project projects data newId now).threadStarted = false := by
  unfold create_project
  split
  · exact ⟨⟨_, _, rfl⟩, rfl, rfl⟩
  · split
    · exact ⟨⟨_, _, rfl⟩, rfl, rfl⟩
    · split
      · exact ⟨⟨_, _, rfl⟩, rfl, rfl⟩
      · rename_i hn1 hn2 hn3
        rcases h with h | h | h
        · exact absurd h hn1
        · exact absurd h hn2
        · exact absurd h hn3

/-- C5 witness: a whitespace-only topic is rejected, leaving an empty
projects map untouched and starting no thread. -/
theorem c5_validation_rejects_witness :
    (∃ msg code,
      (create_project [] ⟨"   ".data, "g".data, "k".data, none⟩ "id".data "t0".data).response =
        .validationError msg code) ∧
    (create_project [] ⟨"   ".data, "g".data, "k".data, none⟩ "id".data "t0".data).projects = [] ∧
    (create_project [] ⟨"   ".data, "g".data, "k".data, none⟩ "id".data "t0".data).threadStarted = false :=
  c5_validation_rejects [] ⟨"   ".data, "g".data, "k".data, none⟩ "id".data "t0".data
    (Or.inl (by decide))

/-- C6: every valid submission returns success carrying the freshly stored
run record, whose id is the newly assigned identifier and whose status at
that moment is `pending` — not `completed` and not `error`. -/
theorem c6_submit_initial_status (projects : List (Str × Project)) (data : CreateData)
    (newId now : Str)
    (h1 : strip data.topic ≠ []) (h2 : strip data.guidelines ≠ [])
    (h3 : strip data.api_key ≠ []) :
    (create_project projects data newId now).response =
      .success (freshProject data newId now) ∧
    (freshProject data newId now).id = newId ∧
    (freshProject data newId now).status = "pending".data ∧
    (freshProject data newId now).status ≠ "completed".data ∧
    (freshProject data newId now).status ≠ "error".data ∧
    (create_project projects data newId now).projects =
      (newId, freshProject data newId now) :: projects := by
  unfold create_project
  rw [if_neg h1, if_neg h2, if_neg h3]
  exact ⟨rfl, rfl, rfl,
    show "pending".data ≠ "completed".data by decide,
    show "pending".data ≠ "error".data by decide, rfl⟩

/-- C6 witness: a concrete valid submission yields a stored `pending` run. -/
theorem c6_submit_initial_status_witness :
    (create_project [] ⟨"topic".data, "guide".data, "key".data, none⟩
        "id1".data "t0".data).response =
      .success (freshProject ⟨"topic".data, "guide".data, "key".data, none⟩
        "id1".data "t0".data) ∧
    (freshProject ⟨"topic".data, "guide".data, "key".data, none⟩
        "id1".data "t0".data).status = "pending".data :=
  ⟨(c6_submit_initial_status [] ⟨"topic".data, "guide".data, "key".data, none⟩
      "id1".data "t0".data (by decide) (by decide) (by decide)).1,
   (c6_submit_initial_status [] ⟨"topic".data, "guide".data, "key".data, none⟩
      "id1".data "t0".data (by decide) (by decide) (by decide)).2.2.1⟩

/-- C7: the Result Decomposer is pure and deterministic — on a successful
kickoff its outcome is exactly `decompose` of the crew output, independent
of the ambient environment state, the credential, and the captured
traceback, so two runs over the same stage outputs yield identical fields;
it takes no run record and mutates none. -/
theorem c7_decomposer_pure (env1 env2 : SharedEnv) (k1 k2 tb1 tb2 : Str)
    (o : CrewOutput) :
    (process_crewai_project env1 k1 (.ok o) tb1).2 =
      (process_crewai_project env2 k2 (.ok o) tb2).2 ∧
    (process_crewai_project env1 k1 (.ok o) tb1).2 =
      .ok (decompose o.tasksOutput o.finalStr) :=
  ⟨rfl, rfl⟩

/-- C8 counterexample: the raw-merge update endpoint moves a run out of a
terminal state — updating a `completed` project with `{"status":
"pending"}` leaves it with the non-terminal status `pending`. -/
theorem c8_update_leaves_terminal :
    isTerminalStatus "completed".data = true ∧
    (applyUpdate
        ⟨"id1".data, "n".data, "t".data, "g".data, "completed".data,
         "w".data, "r".data, "f".data, "c0".data, "c1".data, none⟩
        ⟨none, none, none, some "pending".data, none, none, none⟩
        "u".data).status = "pending".data ∧
    isTerminalStatus "pending".data = false := by decide

/-- C8 (amended): the background lifecycle respects the state machine — a
`pending` run is marked `processing` and then exactly one of `completed`
(success) or `error` (failure), each step being an allowed transition and
the final status terminal; only the out-of-band raw-merge update endpoint
can move a run out of a terminal state. -/
theorem c8_background_state_machine (p : Project) (res : Except Str Fields)
    (n1 n2 : Str) (h : p.status = "pending".data) :
    allowedTransition p.status (markProcessing p n1).status = true ∧
    allowedTransition (markProcessing p n1).status
      (process_in_background p res n1 n2).status = true ∧
    isTerminalStatus (process_in_background p res n1 n2).status = true ∧
    ((process_in_background p res n1 n2).status = "completed".data ∨
     (process_in_background p res n1 n2).status = "error".data) := by
  have hm : (markProcessing p n1).status = "processing".data := rfl
  cases res with
  | ok o =>
    have hs : (process_in_background p (.ok o) n1 n2).status = "completed".data := rfl
    rw [h, hm, hs]
    exact ⟨by decide, by decide, by decide, Or.inl rfl⟩
  | error e =>
    have hs : (process_in_background p (.error e) n1 n2).status = "error".data := rfl
    rw [h, hm, hs]
    exact ⟨by decide, by decide, by decide, Or.inr rfl⟩

/-- C8 amended-claim witness: a concrete pending run ends in a terminal
status after background processing. -/
theorem c8_background_state_machine_witness :
    isTerminalStatus (process_in_background
        ⟨"id1".data, "n".data, "t".data, "g".data, "pending".data, [], [], [],
         "c".data, "c".data, none⟩
        (.ok ⟨"w".data, "r".data, "f".data⟩) "u1".data "u2".data).status = true :=
  (c8_background_state_machine
    ⟨"id1".data, "n".data, "t".data, "g".data, "pending".data, [], [], [],
     "c".data, "c".data, none⟩
    (.ok ⟨"w".data, "r".data, "f".data⟩) "u1".data "u2".data rfl).2.2.1

/-- C9 counterexample: processing a run DOES mutate state shared between
concurrent runs — with the environment holding run A's key, processing a
run with key `"keyB"` overwrites both process-wide API-key variables. -/
theorem c9_env_mutation_counterexample :
    (process_crewai_project
        ⟨some "keyA".data, some "keyA".data, "gemini/gemini-2.0-flash".data⟩
        "keyB".data (.ok ⟨none, "out".data⟩) []).1 ≠
      ⟨some "keyA".data, some "keyA".data, "gemini/gemini-2.0-flash".data⟩ ∧
    (process_crewai_project
        ⟨some "keyA".data, some "keyA".data, "gemini/gemini-2.0-flash".data⟩
        "keyB".data (.ok ⟨none, "out".data⟩) []).1.geminiApiKey =
      some "keyB".data ∧
    (process_crewai_project
        ⟨some "keyA".data, some "keyA".data, "gemini/gemini-2.0-flash".data⟩
        "keyB".data (.ok ⟨none, "out".data⟩) []).1.googleApiKey =
      some "keyB".data := by decide

/-- C9 (amended): besides the run's own record, processing a run mutates
exactly the two process-wide API-key environment variables — both are
overwritten with the run's credential — while the rest of the shared
configuration (the model identifier) is untouched; the generation calls
themselves are delegated to the external crew orchestration. -/
theorem c9_env_frame (env : SharedEnv) (apiKey tb : Str)
    (kick : Except Str CrewOutput) :
    (process_crewai_project env apiKey kick tb).1 =
      { env with geminiApiKey := some apiKey, googleApiKey := some apiKey } ∧
    (process_crewai_project env apiKey kick tb).1.modelId = env.modelId := by
  cases kick with
  | ok o => exact ⟨rfl, rfl⟩
  | error e => exact ⟨rfl, rfl⟩

/-- C10: the combined-blob fallback runs only when both `writer_output` and
`reviewer_feedback` are still empty after the attribution pass; when at
least one of them was populated, the decomposer returns the attribution
result unchanged — in particular the other field stays the empty string and
no split is attempted. -/
theorem c10_fallback_gating (ts : Option (List Str)) (f : Str) (fl : Fields)
    (h : attrib ts f = fl) :
    (fl.writer_output = [] ∧ fl.reviewer_feedback = [] →
      decompose ts f = fallbackSplit fl) ∧
    (¬(fl.writer_output = [] ∧ fl.reviewer_feedback = []) →
      decompose ts f = fl) := by
  unfold decompose
  rw [h]
  constructor
  · intro hc; rw [if_pos hc]
  · intro hc; rw [if_neg hc]

/-- C10 witness: attribution populates only the writer field, so no
fallback split runs even though `"Review"` occurs in the final blob, and
the reviewer field remains the empty string. -/
theorem c10_fallback_gating_witness :
    decompose (some ["Writer says hi".data]) "blob Review x".data =
      ⟨"Writer says hi".data, [], "blob Review x".data⟩ :=
  (c10_fallback_gating (some ["Writer says hi".data]) "blob Review x".data
      ⟨"Writer says hi".data, [], "blob Review x".data⟩ (by decide)).2 (by decide)
